import Mathlib

/-!
Verification of the DVID voxel block engine (catsop/dvid).

This file gives a shallow embedding of the parts of the repository that the
claims concern:

* the block-value codec (`SerializeData` / `DeserializeData` and the
  compression / checksum framing) from `dvid` package serialization code,
* the block transfer engine (`transferBlock`, `ReadFromBlock`,
  `WriteToBlock`, `ComputeTransform`) from `datatype/voxels/voxels.go`,
* the extents bookkeeping (`AdjustPoints` / `AdjustIndices`),
* `NewExtHandler` and the voxel-count cap,
* the per-(dataset, data, version) mutex map (`VersionMutex`), and
* a store-level model of `GetVoxels` / `PutImage`.

Machine integers are modelled as `Nat` / `Int`; byte buffers are modelled as
total functions `Int → Nat` (for the in-memory voxel and block buffers that Go
mutates through `copy`) or as `List Nat` (for serialized byte strings).
Third-party code that the repository calls but does not contain (the snappy
codec, Go's `hash/crc32`, the `dvid.Point` arithmetic helpers) is either
parameterized or modelled from the specification; each such definition says so
in its doc comment.
-/

namespace DVID

/-! ## Compression and checksum constants

From the serialization file of the `dvid` package.  Note that in the Go
source the constants are declared as

  const ( Uncompressed Compression = 0 ; Snappy = 1 << iota )

so on the `Snappy` line `iota = 1` and `Snappy = 1 <<< 1 = 2`; likewise
`CRC32 = 2`.  -/

def Uncompressed : Nat := 0

def Snappy : Nat := 1 <<< 1

def NoChecksum : Nat := 0

def CRC32 : Nat := 1 <<< 1

/-- `EncodeSerializationFormat` from the source: a single byte combining
compression (high nibble) and checksum (low nibble). -/
def EncodeSerializationFormat (compress checksum : Nat) : Nat :=
  ((compress &&& 0x0F) <<< 4) ||| (checksum &&& 0x0F)

/-- `DecodeSerializationFormat` from the source. -/
def DecodeSerializationFormat (s : Nat) : Nat × Nat :=
  (s >>> 4, s &&& 0x0F)

/-! ## CRC32 (IEEE)

Modelled from the spec: the repository calls Go's `hash/crc32`
(`crc32.ChecksumIEEE`), which is not part of the repository source.  This is
the standard reflected CRC-32 with polynomial `0xEDB88320`, bitwise form. -/

def crc32Poly : Nat := 0xEDB88320

/-- One bit step of the reflected CRC-32: mix in one message bit, then shift. -/
def crcBitStep (crc bit : Nat) : Nat :=
  if (crc ^^^ bit) % 2 = 1 then (crc / 2) ^^^ crc32Poly else crc / 2

/-- `n` bit steps consuming the low bits of `b`. -/
def crcBits (crc b : Nat) : Nat → Nat
  | 0 => crc
  | n + 1 => crcBits (crcBitStep crc (b % 2)) (b / 2) n

/-- Consume one byte (8 bit steps, least-significant bit first). -/
def crcByte (crc b : Nat) : Nat := crcBits crc b 8

/-- Modelled from the spec: `crc32.ChecksumIEEE` of Go's standard library
(init `0xFFFFFFFF`, final xor `0xFFFFFFFF`). -/
def crc32ChecksumIEEE (data : List Nat) : Nat :=
  (data.foldl crcByte 0xFFFFFFFF) ^^^ 0xFFFFFFFF

/-- Little-endian 4-byte encoding, as produced by
`binary.Write(&buffer, binary.LittleEndian, crcChecksum)`. -/
def uint32LEBytes (x : Nat) : List Nat :=
  [x % 256, x / 256 % 256, x / 65536 % 256, x / 16777216 % 256]

/-- Little-endian 4-byte read, as done by
`binary.Read(buffer, binary.LittleEndian, &storedCrc32)`. -/
def readUint32LE (b0 b1 b2 b3 : Nat) : Nat :=
  b0 + 256 * b1 + 65536 * b2 + 16777216 * b3

theorem readUint32LE_uint32LEBytes (x : Nat) (h : x < 2 ^ 32) :
    readUint32LE (x % 256) (x / 256 % 256) (x / 65536 % 256) (x / 16777216 % 256) = x := by
  unfold readUint32LE
  omega

theorem crcBitStep_lt (crc bit : Nat) (h : crc < 2 ^ 32) :
    crcBitStep crc bit < 2 ^ 32 := by
  unfold crcBitStep
  split
  · have h1 : crc / 2 < 2 ^ 32 := by omega
    have h2 : crc32Poly < 2 ^ 32 := by norm_num [crc32Poly]
    exact Nat.xor_lt_two_pow h1 h2
  · omega

theorem crcBits_lt (n : Nat) (crc b : Nat) (h : crc < 2 ^ 32) :
    crcBits crc b n < 2 ^ 32 := by
  induction n generalizing crc b with
  | zero => exact h
  | succ n ih => exact ih _ _ (crcBitStep_lt _ _ h)

theorem crcByte_lt (crc b : Nat) (h : crc < 2 ^ 32) : crcByte crc b < 2 ^ 32 :=
  crcBits_lt 8 crc b h

theorem crc32_foldl_lt (l : List Nat) (crc : Nat) (h : crc < 2 ^ 32) :
    l.foldl crcByte crc < 2 ^ 32 := by
  induction l generalizing crc with
  | nil => exact h
  | cons a l ih => exact ih _ (crcByte_lt _ _ h)

theorem crc32ChecksumIEEE_lt (data : List Nat) : crc32ChecksumIEEE data < 2 ^ 32 := by
  unfold crc32ChecksumIEEE
  exact Nat.xor_lt_two_pow (crc32_foldl_lt _ _ (by norm_num)) (by norm_num)

/-! ## SerializeData / DeserializeData

`SerializeData` and `DeserializeData` from the `dvid` package serialization
file.  The snappy codec is third-party code (github.com/janelia-flyem/go/
snappy-go); it is passed in as a parameter pair `enc` / `dec` so that the
theorems can state their hypotheses on it explicitly (losslessness). -/

/-- `SerializeData(data, compress, checksum)`: frame byte, then the optional
CRC of the (compressed) payload, then the (compressed) payload. -/
def SerializeData (enc : List Nat → List Nat) (data : List Nat)
    (compress checksum : Nat) : Except String (List Nat) :=
  let format := EncodeSerializationFormat compress checksum
  match (if compress = Uncompressed then .ok data
         else if compress = Snappy then .ok (enc data)
         else .error "Illegal compression during serialization" :
         Except String (List Nat)) with
  | .error e => .error e
  | .ok byteData =>
    match (if checksum = NoChecksum then .ok ([] : List Nat)
           else if checksum = CRC32 then
             .ok (uint32LEBytes (crc32ChecksumIEEE byteData))
           else .error "Illegal checksum in serialize.SerializeData()" :
           Except String (List Nat)) with
    | .error e => .error e
    | .ok crcBytes => .ok (format :: (crcBytes ++ byteData))

/-- `DeserializeData(s, uncompress)`.  Returns the payload and the stored
compression format.  NOTE the faithful modelling of the Go error flow: a CRC
mismatch only assigns `err`, and the subsequent `data, err = snappy.Decode(...)`
on the Snappy path REASSIGNS `err`, discarding the checksum error. -/
def DeserializeData (dec : List Nat → Except String (List Nat))
    (s : List Nat) (uncompress : Bool) : Except String (List Nat × Nat) :=
  match s with
  | [] => .error "EOF reading serialization format"
  | format :: rest =>
    let compress := (DecodeSerializationFormat format).1
    let checksum := (DecodeSerializationFormat format).2
    -- Read any stored checksum; early return on a read error.
    match (if checksum = NoChecksum then .ok (none, rest)
           else if checksum = CRC32 then
             match rest with
             | b0 :: b1 :: b2 :: b3 :: rest2 =>
               .ok (some (readUint32LE b0 b1 b2 b3), rest2)
             | _ => .error "EOF reading stored checksum"
           else .error "Illegal checksum in deserializing data" :
           Except String (Option Nat × List Nat)) with
    | .error e => .error e
    | .ok (storedCrc32, body) =>
      -- Perform any requested checksum: sets err but does NOT return early.
      let errAfterCrc : Option String :=
        match storedCrc32 with
        | some stored =>
          if crc32ChecksumIEEE body ≠ stored then some "Bad checksum" else none
        | none => none
      -- Uncompress if needed; on the Snappy branch `err` is overwritten.
      let result : List Nat × Option String :=
        if uncompress then
          if compress = Uncompressed then (body, errAfterCrc)
          else if compress = Snappy then
            match dec body with
            | .ok d => (d, none)
            | .error e => (body, some e)
          else (body, some "Illegal compression format in deserialization")
        else (body, errAfterCrc)
      match result with
      | (d, none) => .ok (d, compress)
      | (_, some e) => .error e

/-! ### Reduction lemmas for `DeserializeData` on the four frame layouts -/

theorem DeserializeData_frame0 (dec : List Nat → Except String (List Nat))
    (body : List Nat) :
    DeserializeData dec (0 :: body) true = .ok (body, 0) := rfl

theorem DeserializeData_frame32 (dec : List Nat → Except String (List Nat))
    (body d : List Nat) (h : dec body = .ok d) :
    DeserializeData dec (32 :: body) true = .ok (d, 2) := by
  unfold DeserializeData
  simp [DecodeSerializationFormat, Uncompressed, Snappy, NoChecksum, CRC32, h,
    show (32 : Nat) &&& 15 = 0 from rfl, show (32 : Nat) >>> 4 = 2 from rfl]

theorem DeserializeData_frame2 (dec : List Nat → Except String (List Nat))
    (body : List Nat) :
    DeserializeData dec
      (2 :: (uint32LEBytes (crc32ChecksumIEEE body) ++ body)) true = .ok (body, 0) := by
  have hlt := crc32ChecksumIEEE_lt body
  unfold DeserializeData uint32LEBytes
  simp [DecodeSerializationFormat, Uncompressed, Snappy, NoChecksum, CRC32,
    readUint32LE_uint32LEBytes _ hlt,
    show (2 : Nat) &&& 15 = 2 from rfl, show (2 : Nat) >>> 4 = 0 from rfl]

theorem DeserializeData_frame34 (dec : List Nat → Except String (List Nat))
    (body d : List Nat) (h : dec body = .ok d) :
    DeserializeData dec
      (34 :: (uint32LEBytes (crc32ChecksumIEEE body) ++ body)) true = .ok (d, 2) := by
  have hlt := crc32ChecksumIEEE_lt body
  unfold DeserializeData uint32LEBytes
  simp [DecodeSerializationFormat, Uncompressed, Snappy, NoChecksum, CRC32,
    readUint32LE_uint32LEBytes _ hlt, h,
    show (34 : Nat) &&& 15 = 2 from rfl, show (34 : Nat) >>> 4 = 2 from rfl]

/-- C3: for every payload `p`, compression choice `c` (none or snappy) and
checksum choice `k` (none or crc32), deserializing the serialization of `p`
with uncompression requested returns exactly the payload `p` (and the stored
compression).  The snappy codec is a parameter; the hypothesis `hcodec` states
that it is lossless. -/
theorem SerializeData_DeserializeData
    (enc : List Nat → List Nat) (dec : List Nat → Except String (List Nat))
    (hcodec : ∀ b, dec (enc b) = .ok b)
    (p : List Nat) (compress checksum : Nat)
    (hc : compress = Uncompressed ∨ compress = Snappy)
    (hk : checksum = NoChecksum ∨ checksum = CRC32) :
    ∃ out, SerializeData enc p compress checksum = .ok out ∧
      DeserializeData dec out true = .ok (p, compress) := by
  rcases hc with hc | hc <;> rcases hk with hk | hk <;> subst hc <;> subst hk
  · exact ⟨_, rfl, DeserializeData_frame0 dec p⟩
  · exact ⟨_, rfl, DeserializeData_frame2 dec p⟩
  · exact ⟨_, rfl, DeserializeData_frame32 dec (enc p) p (hcodec p)⟩
  · exact ⟨_, rfl, DeserializeData_frame34 dec (enc p) p (hcodec p)⟩

/-- Witness for C3 at a concrete input: payload `[1, 2, 3]`, snappy + crc32,
with the identity codec (which is lossless). -/
theorem SerializeData_DeserializeData_witness :
    ∃ out, SerializeData id [1, 2, 3] Snappy CRC32 = .ok out ∧
      DeserializeData (fun l => .ok l) out true = .ok ([1, 2, 3], Snappy) :=
  SerializeData_DeserializeData id (fun l => .ok l) (fun _ => rfl)
    [1, 2, 3] Snappy CRC32 (Or.inr rfl) (Or.inr rfl)

/-- C4 counterexample: the claim says the compression code for snappy is 1,
so the frame byte of a snappy, no-checksum serialization would be
`(1 <<< 4) ||| 0 = 16`.  The code produces 32 (the snappy code is 2). -/
theorem SerializeData_frame_byte_counterexample :
    SerializeData id [] Snappy NoChecksum = .ok [32] ∧ (32 : Nat) ≠ (1 <<< 4) ||| 0 :=
  ⟨rfl, by decide⟩

/-- C4 (amended): the first byte of every serialized block value equals
`(compression <<< 4) ||| checksum` where the compression code is 0 for no
compression and 2 for snappy, and the checksum code is 0 for no checksum and
2 for crc32 (`Snappy = CRC32 = 2` by definition). -/
theorem SerializeData_frame_byte (enc : List Nat → List Nat) (p : List Nat)
    (compress checksum : Nat)
    (hc : compress = Uncompressed ∨ compress = Snappy)
    (hk : checksum = NoChecksum ∨ checksum = CRC32) :
    ∃ rest, SerializeData enc p compress checksum =
      .ok (((compress <<< 4) ||| checksum) :: rest) := by
  rcases hc with hc | hc <;> rcases hk with hk | hk <;> subst hc <;> subst hk <;>
    exact ⟨_, rfl⟩

/-- Witness for C4's amended theorem at a concrete input. -/
theorem SerializeData_frame_byte_witness :
    ∃ rest, SerializeData id [7] Snappy CRC32 =
      .ok (((Snappy <<< 4) ||| CRC32) :: rest) :=
  SerializeData_frame_byte id [7] Snappy CRC32 (Or.inr rfl) (Or.inr rfl)

/-- C5 failing input: serialize payload `[5]` with snappy + crc32 (identity
codec standing for the lossless snappy coder), then flip the single payload
byte `5` to `6` in the stored value.  The stored CRC no longer matches the
payload, yet `DeserializeData` returns success with the corrupted payload,
because the Go code reassigns `err` with the result of `snappy.Decode` after
the checksum comparison. -/
theorem DeserializeData_crc_error_dropped :
    SerializeData id [5] Snappy CRC32 =
      .ok (34 :: (uint32LEBytes (crc32ChecksumIEEE [5]) ++ [5])) ∧
    crc32ChecksumIEEE [6] ≠ crc32ChecksumIEEE [5] ∧
    DeserializeData (fun l => .ok l)
      (34 :: (uint32LEBytes (crc32ChecksumIEEE [5]) ++ [6])) true =
      .ok ([6], Snappy) :=
  ⟨rfl, by decide, rfl⟩

/-! ## Points, shapes, byte buffers

`dvid.Point` / `dvid.ChunkPoint3d` are n-dimensional integer points.  The
point arithmetic helpers (`Value`, `Max`, `Min`, `Sub`, `FirstPoint`,
`LastPoint`) live in the `dvid` package point code, which is not part of the
given source; they are modelled from the spec (§4.5 of the spec gives the
block-bound computations explicitly). -/

/-- An n-dimensional integer point (`dvid.Point`); `value p d` is Go's
`p.Value(d)`. -/
abbrev Pt := List Int

def ptValue (p : Pt) (d : Nat) : Int := p.getD d 0

/-- Modelled from the spec: componentwise max (`dvid.Point.Max`). -/
def ptMax (p q : Pt) : Pt := List.zipWith max p q

/-- Modelled from the spec: componentwise min (`dvid.Point.Min`). -/
def ptMin (p q : Pt) : Pt := List.zipWith min p q

/-- Modelled from the spec: componentwise subtraction (`dvid.Point.Sub`). -/
def ptSub (p q : Pt) : Pt := List.zipWith (fun a b => a - b) p q

/-- Modelled from the spec: `ptIndex.FirstPoint(blockSize)`; spec §4.5:
`minBlockVoxel = blockCoord × blockSize`. -/
def firstPoint (c blockSize : Pt) : Pt := List.zipWith (fun a b => a * b) c blockSize

/-- Modelled from the spec: `ptIndex.LastPoint(blockSize)`; spec §4.5:
`maxBlockVoxel = minBlockVoxel + blockSize − 1`. -/
def lastPoint (c blockSize : Pt) : Pt :=
  List.zipWith (fun a b => a * b + b - 1) c blockSize

/-- `dvid.DataShape`: total dimensionality plus the ordered axes of the shape. -/
structure DataShape where
  dims : Nat
  shape : List Nat
  deriving DecidableEq

/-- `DataShape.Equals` from `dvid/geometry.go`: equal dimensionality and an
elementwise-equal axis list. -/
def DataShape.equals (s s2 : DataShape) : Bool :=
  s.dims == s2.dims && s.shape == s2.shape

/-- `DataShape.ShapeDimensions` from `dvid/geometry.go` (nil shape ⇒ 0). -/
def DataShape.shapeDimensions (s : DataShape) : Nat := s.shape.length

def XY : DataShape := ⟨3, [0, 1]⟩

def XZ : DataShape := ⟨3, [0, 2]⟩

def YZ : DataShape := ⟨3, [1, 2]⟩

def Arb : DataShape := ⟨3, []⟩

def Vol3d : DataShape := ⟨3, [0, 1, 2]⟩

/-- A mutable byte buffer (`[]byte` indexed by Go ints), as a total function.
Positions outside the buffer's real extent are never read or written by the
verified operations under their stated bounds hypotheses. -/
def ByteBuf : Type := Int → Nat

/-- Go's `copy(dst[dI:dI+n], src[sI:sI+n])` on byte slices. -/
def copyBytes (dst src : ByteBuf) (dI sI n : Int) : ByteBuf :=
  fun i => if dI ≤ i ∧ i < dI + n then src (sI + (i - dI)) else dst i

/-- `OpType` from `datatype/voxels/voxels.go`. -/
inductive OpType where
  | GetOp
  | PutOp
  deriving DecidableEq

/-- The `voxels.Voxels` ExtHandler: geometry plus the packed data buffer.
`dataLen` records the length of the underlying `[]byte`. -/
structure VoxView where
  shape : DataShape
  startPoint : Pt
  endPoint : Pt
  size : Pt
  stride : Int
  bytesPerVoxel : Int
  data : ByteBuf
  dataLen : Int

/-- `voxels.Block`: spatial index (block coordinate) and the block's bytes. -/
structure Block where
  coord : Pt
  V : ByteBuf

/-- `voxels.OpBounds`. -/
structure OpBounds where
  blockBeg : Pt
  dataBeg : Pt
  dataEnd : Pt

/-- `ComputeTransform` from `datatype/voxels/voxels.go` (the key always
carries a point index here, so the `KeyToPointIndexer` failure cannot occur). -/
def ComputeTransform (v : VoxView) (block : Block) (blockSize : Pt) : OpBounds :=
  let minBlockVoxel := firstPoint block.coord blockSize
  let maxBlockVoxel := lastPoint block.coord blockSize
  let begVolCoord := ptMax v.startPoint minBlockVoxel
  let endVolCoord := ptMin v.endPoint maxBlockVoxel
  { blockBeg := ptSub begVolCoord minBlockVoxel
    dataBeg := ptSub begVolCoord v.startPoint
    dataEnd := ptSub endVolCoord v.startPoint }

/-- The row-copy loop shared by the XY and XZ cases of `transferBlock`:
`n` rows of `nbytes` bytes; `GetOp` copies block→data, `PutOp` data→block;
the block index advances by `bStride` and the data index by `dStride`. -/
def rowLoop (op : OpType) :
    Nat → ByteBuf → ByteBuf → Int → Int → Int → Int → Int → ByteBuf × ByteBuf
  | 0, data, blockV, _, _, _, _, _ => (data, blockV)
  | n + 1, data, blockV, blockI, dataI, bStride, dStride, nbytes =>
    match op with
    | .GetOp =>
      rowLoop op n (copyBytes data blockV dataI blockI nbytes) blockV
        (blockI + bStride) (dataI + dStride) bStride dStride nbytes
    | .PutOp =>
      rowLoop op n data (copyBytes blockV data blockI dataI nbytes)
        (blockI + bStride) (dataI + dStride) bStride dStride nbytes

/-- Inner loop of the YZ case: per-voxel copies of `bpv` bytes, with the
block index advancing by `bX` and the data index by `bpv`. -/
def yzVoxelLoop (op : OpType) :
    Nat → ByteBuf → ByteBuf → Int → Int → Int → Int → ByteBuf × ByteBuf
  | 0, data, blockV, _, _, _, _ => (data, blockV)
  | n + 1, data, blockV, blockI, dataI, bX, bpv =>
    match op with
    | .GetOp =>
      yzVoxelLoop op n (copyBytes data blockV dataI blockI bpv) blockV
        (blockI + bX) (dataI + bpv) bX bpv
    | .PutOp =>
      yzVoxelLoop op n data (copyBytes blockV data blockI dataI bpv)
        (blockI + bX) (dataI + bpv) bX bpv

/-- Loop-invariant parameters of the YZ case of `transferBlock`. -/
structure YZParams where
  bY : Int
  bX : Int
  bpv : Int
  dX : Int
  blockBeg1 : Int
  blockBeg0 : Int
  dataBeg1 : Int
  nInner : Nat

/-- Outer loop of the YZ case: iterate `y` (the view's second shape axis =
volume z) with `bz` the block-local z, recomputing the start indices each
row as the source does. -/
def yzSliceLoop (op : OpType) (p : YZParams) :
    Nat → ByteBuf → ByteBuf → Int → Int → ByteBuf × ByteBuf
  | 0, data, blockV, _, _ => (data, blockV)
  | n + 1, data, blockV, y, bz =>
    let blockI := bz * p.bY + p.blockBeg1 * p.bX + p.blockBeg0 * p.bpv
    let dataI := y * p.dX + p.dataBeg1 * p.bpv
    let r := yzVoxelLoop op p.nInner data blockV blockI dataI p.bX p.bpv
    yzSliceLoop op p n r.1 r.2 (y + 1) (bz + 1)

/-- Loop-invariant parameters of the Vol3d case of `transferBlock`. -/
structure VolParams where
  blockBeg1 : Int
  dataBeg1 : Int
  bY : Int
  bX : Int
  blockOffset : Int
  dY : Int
  dX : Int
  dataOffset : Int
  nbytes : Int
  ny : Nat

/-- Inner (y) loop of the Vol3d case.  NOTE: this is a faithful translation of
the source, whose copy directions in the Vol3d case are the REVERSE of the
three slice cases: `GetOp` copies data→block and `PutOp` copies block→data. -/
def volRowLoop (op : OpType) (p : VolParams) :
    Nat → ByteBuf → ByteBuf → Int → Int → Int → Int → ByteBuf × ByteBuf
  | 0, data, blockV, _, _, _, _ => (data, blockV)
  | n + 1, data, blockV, blockY, dataY, blockZ, dataZ =>
    let blockI := blockZ * p.bY + blockY * p.bX + p.blockOffset
    let dataI := dataZ * p.dY + dataY * p.dX + p.dataOffset
    match op with
    | .GetOp =>
      volRowLoop op p n data (copyBytes blockV data blockI dataI p.nbytes)
        (blockY + 1) (dataY + 1) blockZ dataZ
    | .PutOp =>
      volRowLoop op p n (copyBytes data blockV dataI blockI p.nbytes) blockV
        (blockY + 1) (dataY + 1) blockZ dataZ

/-- Outer (z) loop of the Vol3d case. -/
def volSliceLoop (op : OpType) (p : VolParams) :
    Nat → ByteBuf → ByteBuf → Int → Int → ByteBuf × ByteBuf
  | 0, data, blockV, _, _ => (data, blockV)
  | n + 1, data, blockV, blockZ, dataZ =>
    let r := volRowLoop op p p.ny data blockV p.blockBeg1 p.dataBeg1 blockZ dataZ
    volSliceLoop op p n r.1 r.2 (blockZ + 1) (dataZ + 1)

/-- `transferBlock` from `datatype/voxels/voxels.go`.  Returns the updated
(data, block) buffer pair, or an error for unsupported dimensionality/shape
(in the error cases the Go function returns before executing any copy, so no
buffer is modified). -/
def transferBlock (op : OpType) (v : VoxView) (block : Block) (blockSize : Pt) :
    Except String (ByteBuf × ByteBuf) :=
  if blockSize.length > 3 then
    .error "DVID voxel blocks currently only supports up to 3d, not 4+ dimensions"
  else
    let opBounds := ComputeTransform v block blockSize
    let data := v.data
    let bytesPerVoxel := v.bytesPerVoxel
    let blockBeg := opBounds.blockBeg
    let dataBeg := opBounds.dataBeg
    let dataEnd := opBounds.dataEnd
    let bX := ptValue blockSize 0 * bytesPerVoxel
    let bY := ptValue blockSize 1 * bX
    let dX := v.stride
    if v.shape.equals XY then
      let blockI := ptValue blockBeg 2 * bY + ptValue blockBeg 1 * bX +
        ptValue blockBeg 0 * bytesPerVoxel
      let dataI := ptValue dataBeg 1 * dX + ptValue dataBeg 0 * bytesPerVoxel
      let nbytes := (ptValue dataEnd 0 - ptValue dataBeg 0 + 1) * bytesPerVoxel
      let rows := (ptValue dataEnd 1 - ptValue dataBeg 1 + 1).toNat
      .ok (rowLoop op rows data block.V blockI dataI bX dX nbytes)
    else if v.shape.equals XZ then
      let blockI := ptValue blockBeg 2 * bY + ptValue blockBeg 1 * bX +
        ptValue blockBeg 0 * bytesPerVoxel
      let dataI := ptValue dataBeg 2 * v.stride + ptValue dataBeg 0 * bytesPerVoxel
      let nbytes := (ptValue dataEnd 0 - ptValue dataBeg 0 + 1) * bytesPerVoxel
      let rows := (ptValue dataEnd 2 - ptValue dataBeg 2 + 1).toNat
      .ok (rowLoop op rows data block.V blockI dataI bY dX nbytes)
    else if v.shape.equals YZ then
      let rows := (ptValue dataEnd 2 - ptValue dataBeg 2 + 1).toNat
      let nInner := (ptValue dataEnd 1 - ptValue dataBeg 1 + 1).toNat
      let p : YZParams :=
        { bY := bY, bX := bX, bpv := bytesPerVoxel, dX := dX
          blockBeg1 := ptValue blockBeg 1, blockBeg0 := ptValue blockBeg 0
          dataBeg1 := ptValue dataBeg 1, nInner := nInner }
      .ok (yzSliceLoop op p rows data block.V (ptValue dataBeg 2)
        (ptValue blockBeg 2))
    else if v.shape.shapeDimensions = 2 then
      .error "DVID currently does not support 2d in n-d space."
    else if v.shape.equals Vol3d then
      let p : VolParams :=
        { blockBeg1 := ptValue blockBeg 1, dataBeg1 := ptValue dataBeg 1
          bY := bY, bX := bX
          blockOffset := ptValue blockBeg 0 * bytesPerVoxel
          dY := ptValue v.size 1 * (ptValue v.size 0 * bytesPerVoxel)
          dX := ptValue v.size 0 * bytesPerVoxel
          dataOffset := ptValue dataBeg 0 * bytesPerVoxel
          nbytes := (ptValue dataEnd 0 - ptValue dataBeg 0 + 1) * bytesPerVoxel
          ny := (ptValue dataEnd 1 - ptValue dataBeg 1 + 1).toNat }
      let nz := (ptValue dataEnd 2 - ptValue dataBeg 2 + 1).toNat
      .ok (volSliceLoop op p nz data block.V (ptValue blockBeg 2)
        (ptValue dataBeg 2))
    else
      .error "Cannot ReadFromBlock() unsupported voxels data shape"

/-- `ReadFromBlock` from the source. -/
def ReadFromBlock (v : VoxView) (block : Block) (blockSize : Pt) :
    Except String (ByteBuf × ByteBuf) :=
  transferBlock .GetOp v block blockSize

/-- `WriteToBlock` from the source. -/
def WriteToBlock (v : VoxView) (block : Block) (blockSize : Pt) :
    Except String (ByteBuf × ByteBuf) :=
  transferBlock .PutOp v block blockSize

/-- A concrete 2×2×2 subvolume view whose buffer is all zero. -/
def vol3dZeroView : VoxView :=
  { shape := Vol3d, startPoint := [0, 0, 0], endPoint := [1, 1, 1],
    size := [2, 2, 2], stride := 2, bytesPerVoxel := 1, data := fun _ => 0,
    dataLen := 8 }

/-- A concrete block at coordinate (0,0,0) whose bytes are all 7. -/
def allSevenBlock : Block := { coord := [0, 0, 0], V := fun _ => 7 }

/-- C2 failing input: `ReadFromBlock` (the `GetOp` direction) on a 3D
subvolume view.  The claim says a read copies block→view; here the view
stays 0 at position 0 (instead of receiving the block's 7) while the block
buffer is overwritten with the view's 0 — the Vol3d case of `transferBlock`
has the two copy directions swapped relative to the XY/XZ/YZ cases. -/
theorem ReadFromBlock_Vol3d_direction_reversed :
    ((ReadFromBlock vol3dZeroView allSevenBlock [2, 2, 2]).toOption.map
      (fun r => (r.1 0, r.2 0))) = some (0, 0) ∧
    vol3dZeroView.data 0 = 0 ∧ allSevenBlock.V 0 = 7 :=
  ⟨rfl, rfl, rfl⟩

/-- C9: a view whose shape is none of XY, XZ, YZ, Vol3d — or a block size of
more than 3 dimensions — makes `transferBlock` fail with an error; the Go
function returns before executing any copy statement, so no bytes move. -/
theorem transferBlock_unsupported_shape (op : OpType) (v : VoxView)
    (block : Block) (blockSize : Pt)
    (h : 3 < blockSize.length ∨
      (v.shape.equals XY = false ∧ v.shape.equals XZ = false ∧
       v.shape.equals YZ = false ∧ v.shape.equals Vol3d = false)) :
    ∃ msg, transferBlock op v block blockSize = .error msg := by
  unfold transferBlock
  rcases h with h | ⟨h1, h2, h3, h4⟩
  · exact ⟨"DVID voxel blocks currently only supports up to 3d, not 4+ dimensions",
      by simp [h]⟩
  · by_cases hd : blockSize.length > 3
    · exact ⟨"DVID voxel blocks currently only supports up to 3d, not 4+ dimensions",
        by simp [hd]⟩
    · by_cases hs : v.shape.shapeDimensions = 2
      · exact ⟨"DVID currently does not support 2d in n-d space.",
          by simp [hd, h1, h2, h3, h4, hs]⟩
      · exact ⟨"Cannot ReadFromBlock() unsupported voxels data shape",
          by simp [hd, h1, h2, h3, h4, hs]⟩

/-- Witness for C9 at a concrete input: the `Arb` shape (arbitrary-orientation
slice) with an ordinary 3d block size. -/
theorem transferBlock_unsupported_shape_witness :
    ∃ msg, transferBlock .GetOp
      { shape := Arb, startPoint := [0, 0, 0], endPoint := [0, 0, 0],
        size := [1, 1], stride := 1, bytesPerVoxel := 1, data := fun _ => 0,
        dataLen := 1 }
      { coord := [0, 0, 0], V := fun _ => 0 } [2, 2, 2] = .error msg :=
  transferBlock_unsupported_shape _ _ _ _ (Or.inr ⟨rfl, rfl, rfl, rfl⟩)

/-! ## Extents (`AdjustPoints` / `AdjustIndices`) -/

/-- Modelled from the spec: `dvid.Point.Min` (point code not in the given
source) returns the componentwise minimum together with whether the result
differs from the receiver, i.e. whether the stored bound was strictly
extended (spec §4.4). -/
def ptMinChanged (p q : Pt) : Pt × Bool :=
  (ptMin p q, decide (ptMin p q ≠ p))

/-- Modelled from the spec: `dvid.Point.Max`, see `ptMinChanged`. -/
def ptMaxChanged (p q : Pt) : Pt × Bool :=
  (ptMax p q, decide (ptMax p q ≠ p))

/-- `voxels.Extents` (the two mutexes guard concurrent access and have no
sequential content). -/
structure Extents where
  MinPoint : Option Pt
  MaxPoint : Option Pt
  MinIndex : Option Pt
  MaxIndex : Option Pt
  deriving DecidableEq

/-- `Extents.AdjustPoints` from `datatype/voxels/voxels.go`.  Faithful to the
Go control flow: the `changed` variable is assigned by the MinPoint branch and
then OVERWRITTEN by the MaxPoint branch, so the returned flag only reflects
the max bound (or a nil max). -/
def AdjustPoints (ext : Extents) (pointBeg pointEnd : Pt) : Extents × Bool :=
  let minStep : Pt × Bool :=
    match ext.MinPoint with
    | none => (pointBeg, true)
    | some mp => ptMinChanged mp pointBeg
  let maxStep : Pt × Bool :=
    match ext.MaxPoint with
    | none => (pointEnd, true)
    | some mp => ptMaxChanged mp pointEnd
  ({ ext with MinPoint := some minStep.1, MaxPoint := some maxStep.1 },
    maxStep.2)

/-- `Extents.AdjustIndices` from the source; same overwritten-flag control
flow as `AdjustPoints`. -/
def AdjustIndices (ext : Extents) (indexBeg indexEnd : Pt) : Extents × Bool :=
  let minStep : Pt × Bool :=
    match ext.MinIndex with
    | none => (indexBeg, true)
    | some mp => ptMinChanged mp indexBeg
  let maxStep : Pt × Bool :=
    match ext.MaxIndex with
    | none => (indexEnd, true)
    | some mp => ptMaxChanged mp indexEnd
  ({ ext with MinIndex := some minStep.1, MaxIndex := some maxStep.1 },
    maxStep.2)

/-- The extents state used in the C6 failing input. -/
def extentsBefore : Extents :=
  { MinPoint := some [0, 0, 0], MaxPoint := some [10, 10, 10],
    MinIndex := some [0, 0, 0], MaxIndex := some [10, 10, 10] }

/-- C6 failing input: adjusting with `begin = [-1,0,0]`, `end = [5,5,5]`
strictly extends the min bound (from `[0,0,0]` to `[-1,0,0]`) while leaving
the max bound alone — yet both `AdjustPoints` and `AdjustIndices` return
`false`, because the Go code overwrites the min-branch `changed` flag with
the max-branch result.  The claim (`changed` ⟺ some bound strictly
extended) therefore fails on the code. -/
theorem AdjustPoints_min_extension_returns_false :
    (AdjustPoints extentsBefore [-1, 0, 0] [5, 5, 5]).2 = false ∧
    (AdjustPoints extentsBefore [-1, 0, 0] [5, 5, 5]).1.MinPoint = some [-1, 0, 0] ∧
    extentsBefore.MinPoint = some [0, 0, 0] ∧
    (AdjustIndices extentsBefore [-1, 0, 0] [5, 5, 5]).2 = false ∧
    (AdjustIndices extentsBefore [-1, 0, 0] [5, 5, 5]).1.MinIndex = some [-1, 0, 0] ∧
    extentsBefore.MinIndex = some [0, 0, 0] := by
  refine ⟨?_, rfl, rfl, ?_, rfl, rfl⟩ <;> decide

/-! ## NewExtHandler and the voxel-count cap -/

/-- Modelled from the spec: `dvid.Giga` (defined in `dvid` utility code that
is not part of the given source).  Spec §7: `OversizeRequest` fires for a
"voxel count > engine-configured cap; default 10⁹". -/
def Giga : Int := 1000000000

/-- `MaxVoxelsRequest` from `datatype/voxels/voxels.go`. -/
def MaxVoxelsRequest : Int := Giga

/-- A `dvid.Geometry` value: shape, offset, extent and voxel count. -/
structure Geom where
  shape : DataShape
  startPoint : Pt
  endPoint : Pt
  size : Pt
  numVoxels : Int

/-- `Data.NewExtHandler` from `datatype/voxels/voxels.go`, restricted to the
`img == nil` branch the claim is about: reject non-positive and oversize
voxel counts, otherwise allocate a zeroed buffer of
`bytesPerVoxel × numVoxels` bytes. -/
def NewExtHandler (bytesPerVoxel : Int) (geom : Geom) : Except String VoxView :=
  let stride := ptValue geom.size 0 * bytesPerVoxel
  if geom.numVoxels ≤ 0 then
    .error "Illegal geometry requested"
  else if geom.numVoxels > MaxVoxelsRequest then
    .error "Requested # voxels exceeds this DVID server's set limit"
  else
    .ok { shape := geom.shape, startPoint := geom.startPoint,
          endPoint := geom.endPoint, size := geom.size, stride := stride,
          bytesPerVoxel := bytesPerVoxel, data := fun _ => 0,
          dataLen := bytesPerVoxel * geom.numVoxels }

/-- C8: with no supplied image data, `NewExtHandler` fails when the voxel
count is not positive or exceeds the cap, and otherwise returns a
zero-initialized buffer of `bytesPerVoxel × numVoxels` bytes. -/
theorem NewExtHandler_spec (bytesPerVoxel : Int) (geom : Geom) :
    (geom.numVoxels ≤ 0 ∨ MaxVoxelsRequest < geom.numVoxels →
      ∃ msg, NewExtHandler bytesPerVoxel geom = .error msg) ∧
    (0 < geom.numVoxels → geom.numVoxels ≤ MaxVoxelsRequest →
      ∃ v, NewExtHandler bytesPerVoxel geom = .ok v ∧
        v.dataLen = bytesPerVoxel * geom.numVoxels ∧ ∀ i, v.data i = 0) := by
  constructor
  · rintro (h | h)
    · exact ⟨"Illegal geometry requested", by simp [NewExtHandler, h]⟩
    · refine ⟨"Requested # voxels exceeds this DVID server's set limit", ?_⟩
      have hcap : (0 : Int) ≤ MaxVoxelsRequest := by norm_num [MaxVoxelsRequest, Giga]
      have h0 : ¬ geom.numVoxels ≤ 0 := by omega
      simp [NewExtHandler, h0, h]
  · intro h1 h2
    have h0 : ¬ geom.numVoxels ≤ 0 := by omega
    have h3 : ¬ geom.numVoxels > MaxVoxelsRequest := by omega
    refine ⟨VoxView.mk geom.shape geom.startPoint geom.endPoint geom.size
        (ptValue geom.size 0 * bytesPerVoxel) bytesPerVoxel (fun _ => 0)
        (bytesPerVoxel * geom.numVoxels), ?_, rfl, fun i => rfl⟩
    simp [NewExtHandler, h0, h3]

/-- Witness for C8 at a concrete input: a 2×2×2 subvolume, one byte per
voxel. -/
theorem NewExtHandler_spec_witness :
    ∃ v, NewExtHandler 1
      { shape := Vol3d, startPoint := [0, 0, 0], endPoint := [1, 1, 1],
        size := [2, 2, 2], numVoxels := 8 } = .ok v ∧
      v.dataLen = 1 * 8 ∧ ∀ i, v.data i = 0 :=
  (NewExtHandler_spec 1
    { shape := Vol3d, startPoint := [0, 0, 0], endPoint := [1, 1, 1],
      size := [2, 2, 2], numVoxels := 8 }).2 (by norm_num)
    (by norm_num [MaxVoxelsRequest, Giga])

/-! ## VersionMutex -/

/-- `datastore.nodeID`: the (dataset, data, version) triple keying the mutex
map.  The local IDs are 16-bit in Go; the width is irrelevant here. -/
structure NodeID where
  dataset : Nat
  data : Nat
  version : Nat
  deriving DecidableEq

/-- The global `versionMutexes` map.  Distinct `*sync.Mutex` objects are
modelled by distinct allocation numbers: `next` is the next fresh mutex. -/
structure MutexMap where
  table : NodeID → Option Nat
  next : Nat

/-- `Data.VersionMutex` from `datastore` code: look the triple up in the
map, allocating and inserting a fresh mutex on first use.  (The Go method
also locks a short-lived guard mutex around the lookup; that guard carries no
sequential content.) -/
def VersionMutex (m : MutexMap) (dsetID dataID versionID : Nat) :
    Nat × MutexMap :=
  let id : NodeID := ⟨dsetID, dataID, versionID⟩
  match m.table id with
  | some vmutex => (vmutex, m)
  | none =>
    (m.next,
      { table := fun k => if k = id then some m.next else m.table k,
        next := m.next + 1 })

/-- Well-formedness of the mutex map: every allocated mutex is below `next`,
and no two triples share a mutex. -/
def MutexMap.WF (m : MutexMap) : Prop :=
  (∀ k i, m.table k = some i → i < m.next) ∧
  (∀ k k' i, m.table k = some i → m.table k' = some i → k = k')

/-- The empty mutex map (the state after the package `init`). -/
def emptyMutexMap : MutexMap := { table := fun _ => none, next := 0 }

theorem emptyMutexMap_WF : emptyMutexMap.WF := by
  constructor
  · intro k i h
    exact nomatch h
  · intro k k' i h h'
    exact nomatch h

theorem VersionMutex_found (m : MutexMap) (ds da v i : Nat)
    (h : m.table ⟨ds, da, v⟩ = some i) :
    VersionMutex m ds da v = (i, m) := by
  simp only [VersionMutex]
  rw [h]

theorem VersionMutex_notFound (m : MutexMap) (ds da v : Nat)
    (h : m.table ⟨ds, da, v⟩ = none) :
    VersionMutex m ds da v =
      (m.next,
        { table := fun k => if k = ⟨ds, da, v⟩ then some m.next else m.table k,
          next := m.next + 1 }) := by
  simp only [VersionMutex]
  rw [h]

theorem VersionMutex_WF (m : MutexMap) (hwf : m.WF) (ds da v : Nat) :
    (VersionMutex m ds da v).2.WF := by
  rcases h : m.table ⟨ds, da, v⟩ with _ | i
  · rw [VersionMutex_notFound m ds da v h]
    constructor
    · intro k j hk
      change (if k = ⟨ds, da, v⟩ then some m.next else m.table k) = some j at hk
      show j < m.next + 1
      split at hk
      · cases hk
        omega
      · have := hwf.1 k j hk
        omega
    · intro k k' j hk hk'
      change (if k = ⟨ds, da, v⟩ then some m.next else m.table k) = some j at hk
      change (if k' = ⟨ds, da, v⟩ then some m.next else m.table k') = some j at hk'
      split at hk <;> split at hk'
      · subst_vars
        rfl
      · cases hk
        have := hwf.1 k' _ hk'
        omega
      · cases hk'
        have := hwf.1 k _ hk
        omega
      · exact hwf.2 k k' j hk hk'
  · rw [VersionMutex_found m ds da v i h]
    exact hwf

/-- After a call, the called triple is present in the map and bound to the
returned mutex. -/
theorem VersionMutex_table_self (m : MutexMap) (ds da v : Nat) :
    (VersionMutex m ds da v).2.table ⟨ds, da, v⟩ =
      some ((VersionMutex m ds da v).1) := by
  rcases h : m.table ⟨ds, da, v⟩ with _ | i
  · simp [VersionMutex_notFound m ds da v h]
  · simp [VersionMutex_found m ds da v i h, h]

/-- C10: `VersionMutex` creates the per-triple mutex on first use and looks
it up thereafter.  For a well-formed mutex map: a repeated call with the same
triple returns the same mutex and leaves the map unchanged, and a call with a
distinct triple returns a distinct mutex. -/
theorem VersionMutex_spec (m : MutexMap) (hwf : m.WF)
    (ds da v ds' da' v' : Nat) :
    (VersionMutex (VersionMutex m ds da v).2 ds da v =
      ((VersionMutex m ds da v).1, (VersionMutex m ds da v).2)) ∧
    ((ds, da, v) ≠ (ds', da', v') →
      (VersionMutex (VersionMutex m ds da v).2 ds' da' v').1 ≠
        (VersionMutex m ds da v).1) := by
  have hne : (ds, da, v) ≠ (ds', da', v') →
      (⟨ds', da', v'⟩ : NodeID) ≠ ⟨ds, da, v⟩ := by
    intro h heq
    cases heq
    exact h rfl
  have hA := VersionMutex_table_self m ds da v
  have hwf1 := VersionMutex_WF m hwf ds da v
  constructor
  · exact VersionMutex_found _ ds da v _ hA
  · intro hd
    rcases h2 : (VersionMutex m ds da v).2.table ⟨ds', da', v'⟩ with _ | i2
    · rw [VersionMutex_notFound _ ds' da' v' h2]
      have := hwf1.1 _ _ hA
      simp only
      omega
    · rw [VersionMutex_found _ ds' da' v' i2 h2]
      simp only
      intro heq
      exact hne hd (hwf1.2 _ _ _ h2 (heq ▸ hA))

/-- Witness for C10 at a concrete input: starting from the empty map, the
triples (1,2,3) and (1,2,4) get distinct mutexes and the repeated call for
(1,2,3) is a stable lookup. -/
theorem VersionMutex_spec_witness :
    (VersionMutex (VersionMutex emptyMutexMap 1 2 3).2 1 2 3 =
      ((VersionMutex emptyMutexMap 1 2 3).1,
       (VersionMutex emptyMutexMap 1 2 3).2)) ∧
    ((1, 2, 3) ≠ ((1 : Nat), (2 : Nat), (4 : Nat)) →
      (VersionMutex (VersionMutex emptyMutexMap 1 2 3).2 1 2 4).1 ≠
        (VersionMutex emptyMutexMap 1 2 3).1) :=
  VersionMutex_spec emptyMutexMap emptyMutexMap_WF 1 2 3 1 2 4

/-! ## Store-level model of `GetVoxels` / `PutImage`

The backend is an ordered key-value store; all keys of one
(dataset, data, version) share a prefix, so for a fixed data/version the
store is a map from block coordinate to block value.  Block values are kept
in decoded form here: `GetVoxels` deserializes each record before
`ReadFromBlock` and `PutImage`'s chunk handler re-serializes after
`WriteToBlock`, and the codec round-trip is proven separately
(`SerializeData_DeserializeData`).

`PutImage` iterates the spans of the view's block cover (ZYX iterator), and
for each block coordinate in a span's `[begX, endX]` range either takes the
existing record returned by the range-GET or allocates a zeroed block, then
runs the chunk handler (`WriteToBlock` + store put).  The view buffer is
threaded through because the (buggy) Vol3d `PutOp` writes into it.
`GetVoxels` dispatches only the records that exist in the scanned range;
missing blocks leave the view's sub-region zeroed. -/

/-- Modelled from the spec: the block coordinate containing a voxel
(`dvid.Point.Chunk`, floor division; spec §4.1 uses `⌊x/bx⌋` and supports
negative coordinates). -/
def chunkPoint (p blockSize : Pt) : Pt := List.zipWith Int.ediv p blockSize

def intRange (a b : Int) : List Int :=
  (List.range (b - a + 1).toNat).map (fun i => a + i)

/-- The block coordinates of the box `[c0, c1]` in ZYX span order (z
outermost, then y, then the x run of each span). -/
def coordsInBox (c0 c1 : Pt) : List Pt :=
  (intRange (ptValue c0 2) (ptValue c1 2)).flatMap (fun z =>
    (intRange (ptValue c0 1) (ptValue c1 1)).flatMap (fun y =>
      (intRange (ptValue c0 0) (ptValue c1 0)).map (fun x => [x, y, z])))

/-- The per-(data, version) slice of the backend: block coordinate ↦ decoded
block value. -/
def Store : Type := Pt → Option ByteBuf

def storePut (s : Store) (c : Pt) (bv : ByteBuf) : Store :=
  fun c' => if c' = c then some bv else s c'

def emptyStore : Store := fun _ => none

/-- `GetVoxels` from `datatype/voxels/voxels.go` at the store level: scan the
view's covering spans and let each existing record's chunk handler decode the
block and `ReadFromBlock` it into the view buffer. -/
def GetVoxels (store : Store) (blockSize : Pt) (v : VoxView) : VoxView :=
  let c0 := chunkPoint v.startPoint blockSize
  let c1 := chunkPoint v.endPoint blockSize
  (coordsInBox c0 c1).foldl (fun acc c =>
    match store c with
    | none => acc
    | some bv =>
      match ReadFromBlock acc ⟨c, bv⟩ blockSize with
      | .ok r => { acc with data := r.1 }
      | .error _ => acc) v

/-- `PutImage` from `datatype/voxels/voxels.go` at the store level: for every
block coordinate covering the view, take the existing record or a zeroed
block, `WriteToBlock` the view into it, and persist the result.  (Extents
and metadata bookkeeping are modelled separately via `AdjustPoints` /
`AdjustIndices`.) -/
def PutImage (store : Store) (blockSize : Pt) (v : VoxView) : Store × VoxView :=
  let c0 := chunkPoint v.startPoint blockSize
  let c1 := chunkPoint v.endPoint blockSize
  (coordsInBox c0 c1).foldl (fun acc c =>
    let old : ByteBuf :=
      match acc.1 c with
      | some bv => bv
      | none => fun _ => 0
    match WriteToBlock acc.2 ⟨c, old⟩ blockSize with
    | .ok r => (storePut acc.1 c r.2, { acc.2 with data := r.1 })
    | .error _ => acc) (store, v)

/-- The 2×2×2 subvolume view holding bytes 1..8 used as the C1 failing
input. -/
def c1PutView : VoxView :=
  { shape := Vol3d, startPoint := [0, 0, 0], endPoint := [1, 1, 1],
    size := [2, 2, 2], stride := 2, bytesPerVoxel := 1,
    data := fun i => if 0 ≤ i ∧ i < 8 then i.toNat + 1 else 0, dataLen := 8 }

/-- The same geometry with the fresh zeroed buffer `GetVoxels` starts from. -/
def c1GetView : VoxView := { c1PutView with data := fun _ => 0 }

/-- C1 failing input: putting a 2×2×2 3D subvolume (bytes 1..8) into an empty
store and getting the same view back yields 0 at position 0 instead of the
original byte 1 — the Vol3d case of `transferBlock` has its copy directions
reversed, so the put stores a zero block and the get leaves the view buffer
untouched.  The put/get round trip (byte-equality) fails for 3D subvolume
views. -/
theorem PutImage_GetVoxels_Vol3d_not_roundtrip :
    (GetVoxels (PutImage emptyStore [2, 2, 2] c1PutView).1 [2, 2, 2]
      c1GetView).data 0 = 0 ∧
    c1PutView.data 0 = 1 :=
  ⟨rfl, rfl⟩

/-! ## Frame property of `WriteToBlock` (claim C7)

A write only touches the block bytes of voxels inside the view's box; every
other block byte keeps its previous value.  The lemmas below characterise the
block positions written by each loop. -/

theorem copyBytes_eq_outside (dst src : ByteBuf) (dI sI n p : Int)
    (h : ¬ (dI ≤ p ∧ p < dI + n)) : copyBytes dst src dI sI n p = dst p := by
  unfold copyBytes
  rw [if_neg h]

theorem rowLoop_put_block_outside (n : Nat) (data blockV : ByteBuf)
    (blockI dataI bS dS nb p : Int)
    (hout : ∀ (r : Nat) (t : Int), r < n → 0 ≤ t → t < nb →
      p ≠ blockI + (r : Int) * bS + t) :
    (rowLoop .PutOp n data blockV blockI dataI bS dS nb).2 p = blockV p := by
  induction n generalizing data blockV blockI dataI with
  | zero => rfl
  | succ m ih =>
    show (rowLoop .PutOp m data (copyBytes blockV data blockI dataI nb)
        (blockI + bS) (dataI + dS) bS dS nb).2 p = blockV p
    have hstep : ∀ (r : Nat) (t : Int), r < m → 0 ≤ t → t < nb →
        p ≠ blockI + bS + (r : Int) * bS + t := by
      intro r t hr ht0 htn hpt
      refine hout (r + 1) t (by omega) ht0 htn ?_
      rw [hpt]
      push_cast
      ring
    rw [ih data (copyBytes blockV data blockI dataI nb) (blockI + bS)
      (dataI + dS) hstep]
    refine copyBytes_eq_outside _ _ _ _ _ _ (fun hc => ?_)
    exact hout 0 (p - blockI) (Nat.succ_pos m) (by linarith [hc.1])
      (by linarith [hc.2]) (by push_cast; ring)

theorem yzVoxelLoop_eq_rowLoop (op : OpType) (n : Nat) (data blockV : ByteBuf)
    (blockI dataI bX bpv : Int) :
    yzVoxelLoop op n data blockV blockI dataI bX bpv =
      rowLoop op n data blockV blockI dataI bX bpv bpv := by
  induction n generalizing data blockV blockI dataI with
  | zero => rfl
  | succ m ih =>
    cases op <;> simp only [yzVoxelLoop, rowLoop] <;> exact ih ..

theorem yzSliceLoop_put_block_outside (prm : YZParams) (n : Nat)
    (data blockV : ByteBuf) (y bz p : Int)
    (hout : ∀ (r j : Nat) (t : Int), r < n → j < prm.nInner → 0 ≤ t →
      t < prm.bpv →
      p ≠ (bz + (r : Int)) * prm.bY + prm.blockBeg1 * prm.bX +
        prm.blockBeg0 * prm.bpv + (j : Int) * prm.bX + t) :
    (yzSliceLoop .PutOp prm n data blockV y bz).2 p = blockV p := by
  induction n generalizing data blockV y bz with
  | zero => rfl
  | succ m ih =>
    simp only [yzSliceLoop]
    have hstep : ∀ (r j : Nat) (t : Int), r < m → j < prm.nInner → 0 ≤ t →
        t < prm.bpv →
        p ≠ (bz + 1 + (r : Int)) * prm.bY + prm.blockBeg1 * prm.bX +
          prm.blockBeg0 * prm.bpv + (j : Int) * prm.bX + t := by
      intro r j t hr hj ht0 htn hpt
      refine hout (r + 1) j t (by omega) hj ht0 htn ?_
      rw [hpt]
      push_cast
      ring
    rw [ih _ _ (y + 1) (bz + 1) hstep]
    rw [yzVoxelLoop_eq_rowLoop]
    refine rowLoop_put_block_outside prm.nInner data blockV _ _ _ _ _ p ?_
    intro j t hj ht0 htn hpt
    refine hout 0 j t (Nat.succ_pos m) hj ht0 htn ?_
    rw [hpt]
    push_cast
    ring

theorem volRowLoop_put_block (prm : VolParams) (n : Nat)
    (data blockV : ByteBuf) (blockY dataY blockZ dataZ : Int) :
    (volRowLoop .PutOp prm n data blockV blockY dataY blockZ dataZ).2 =
      blockV := by
  induction n generalizing data blockV blockY dataY with
  | zero => rfl
  | succ m ih => exact ih ..

theorem volSliceLoop_put_block (prm : VolParams) (n : Nat)
    (data blockV : ByteBuf) (blockZ dataZ : Int) :
    (volSliceLoop .PutOp prm n data blockV blockZ dataZ).2 = blockV := by
  induction n generalizing data blockV blockZ dataZ with
  | zero => rfl
  | succ m ih =>
    simp only [volSliceLoop]
    rw [ih]
    exact volRowLoop_put_block ..

theorem ptValue0 (a b c : Int) : ptValue [a, b, c] 0 = a := rfl

theorem ptValue1 (a b c : Int) : ptValue [a, b, c] 1 = b := rfl

theorem ptValue2 (a b c : Int) : ptValue [a, b, c] 2 = c := rfl

/-- `ComputeTransform` on 3d points, written out in scalar components. -/
theorem ComputeTransform_scalars (shape : DataShape) (size : Pt)
    (stride bpv dataLen : Int) (data blockV : ByteBuf)
    (sx sy sz ex ey ez cx cy cz bsx bsy bsz : Int) :
    ComputeTransform
      { shape := shape, startPoint := [sx, sy, sz], endPoint := [ex, ey, ez],
        size := size, stride := stride, bytesPerVoxel := bpv, data := data,
        dataLen := dataLen }
      { coord := [cx, cy, cz], V := blockV } [bsx, bsy, bsz] =
    { blockBeg := [max sx (cx * bsx) - cx * bsx, max sy (cy * bsy) - cy * bsy,
        max sz (cz * bsz) - cz * bsz],
      dataBeg := [max sx (cx * bsx) - sx, max sy (cy * bsy) - sy,
        max sz (cz * bsz) - sz],
      dataEnd := [min ex (cx * bsx + bsx - 1) - sx,
        min ey (cy * bsy + bsy - 1) - sy,
        min ez (cz * bsz + bsz - 1) - sz] } := rfl

/-- Block-buffer byte positions that belong to the view: position `p` is the
`s`-th byte of the block-local voxel `(qx, qy, qz)` (row-major, x fastest,
`bpv` bytes per voxel) and the global voxel `blockCoord·blockSize + q` lies
inside the view's bounding box `[start, end]`. -/
def inViewRegion (sx sy sz ex ey ez cx cy cz bsx bsy bsz bpv p : Int) : Prop :=
  ∃ qx qy qz s : Int,
    0 ≤ qx ∧ qx < bsx ∧ 0 ≤ qy ∧ qy < bsy ∧ 0 ≤ qz ∧ qz < bsz ∧
    sx ≤ cx * bsx + qx ∧ cx * bsx + qx ≤ ex ∧
    sy ≤ cy * bsy + qy ∧ cy * bsy + qy ≤ ey ∧
    sz ≤ cz * bsz + qz ∧ cz * bsz + qz ≤ ez ∧
    0 ≤ s ∧ s < bpv ∧
    p = qz * (bsy * (bsx * bpv)) + qy * (bsx * bpv) + qx * bpv + s

/-- C7: for every block that intersects the view, a successful
`WriteToBlock` leaves every block byte outside the view's region with the
value it had before the write (for every supported shape; in the Vol3d case
the buggy direction swap writes nothing into the block, which satisfies the
frame property vacuously). -/
theorem WriteToBlock_outside_view
    (shape : DataShape) (size : Pt) (stride dataLen : Int)
    (sx sy sz ex ey ez cx cy cz bsx bsy bsz bpv : Int)
    (data blockV d' b' : ByteBuf)
    (hbpv : 0 < bpv)
    (hix : max sx (cx * bsx) ≤ min ex (cx * bsx + bsx - 1))
    (hiy : max sy (cy * bsy) ≤ min ey (cy * bsy + bsy - 1))
    (hiz : max sz (cz * bsz) ≤ min ez (cz * bsz + bsz - 1))
    (hok : WriteToBlock
      { shape := shape, startPoint := [sx, sy, sz], endPoint := [ex, ey, ez],
        size := size, stride := stride, bytesPerVoxel := bpv, data := data,
        dataLen := dataLen }
      { coord := [cx, cy, cz], V := blockV } [bsx, bsy, bsz] = .ok (d', b'))
    (p : Int)
    (hp : ¬ inViewRegion sx sy sz ex ey ez cx cy cz bsx bsy bsz bpv p) :
    b' p = blockV p := by
  unfold WriteToBlock transferBlock at hok
  rw [if_neg (by simp : ¬ List.length ([bsx, bsy, bsz] : Pt) > 3)] at hok
  rw [ComputeTransform_scalars] at hok
  simp only [ptValue0, ptValue1, ptValue2] at hok
  set mx := cx * bsx with hmx
  set my := cy * bsy with hmy
  set mz := cz * bsz with hmz
  set B0 := max sx mx with hB0
  set B1 := max sy my with hB1
  set B2 := max sz mz with hB2
  set M0 := min ex (mx + bsx - 1) with hM0
  set M1 := min ey (my + bsy - 1) with hM1
  set M2 := min ez (mz + bsz - 1) with hM2
  have hB0a : sx ≤ B0 := by rw [hB0]; exact le_max_left _ _
  have hB0b : mx ≤ B0 := by rw [hB0]; exact le_max_right _ _
  have hB1a : sy ≤ B1 := by rw [hB1]; exact le_max_left _ _
  have hB1b : my ≤ B1 := by rw [hB1]; exact le_max_right _ _
  have hB2a : sz ≤ B2 := by rw [hB2]; exact le_max_left _ _
  have hB2b : mz ≤ B2 := by rw [hB2]; exact le_max_right _ _
  have hM0a : M0 ≤ ex := by rw [hM0]; exact min_le_left _ _
  have hM0b : M0 ≤ mx + bsx - 1 := by rw [hM0]; exact min_le_right _ _
  have hM1a : M1 ≤ ey := by rw [hM1]; exact min_le_left _ _
  have hM1b : M1 ≤ my + bsy - 1 := by rw [hM1]; exact min_le_right _ _
  have hM2a : M2 ≤ ez := by rw [hM2]; exact min_le_left _ _
  have hM2b : M2 ≤ mz + bsz - 1 := by rw [hM2]; exact min_le_right _ _
  split at hok
  · -- XY slice
    have hb : _ = b' := (Prod.ext_iff.mp (Except.ok.inj hok)).2
    rw [← hb]
    refine rowLoop_put_block_outside _ _ _ _ _ _ _ _ _ ?_
    intro r t hr ht0 htn hpt
    have hrI : (r : Int) < M1 - sy - (B1 - sy) + 1 := by omega
    have hq0 : 0 ≤ t.ediv bpv := Int.ediv_nonneg ht0 (le_of_lt hbpv)
    have hqlt : t.ediv bpv < M0 - sx - (B0 - sx) + 1 :=
      (Int.ediv_lt_iff_lt_mul hbpv).mpr htn
    have hs0 : 0 ≤ t.emod bpv := Int.emod_nonneg t (ne_of_gt hbpv)
    have hslt : t.emod bpv < bpv := Int.emod_lt_of_pos t hbpv
    have hdecomp : t = bpv * t.ediv bpv + t.emod bpv :=
      (Int.ediv_add_emod t bpv).symm
    refine hp ⟨B0 - mx + t.ediv bpv, B1 - my + (r : Int), B2 - mz, t.emod bpv,
      by omega, by omega, by omega, by omega, by omega, by omega,
      by omega, by omega, by omega, by omega, by omega, by omega,
      hs0, hslt, ?_⟩
    rw [hpt]
    linear_combination hdecomp
  · split at hok
    · -- XZ slice
      have hb : _ = b' := (Prod.ext_iff.mp (Except.ok.inj hok)).2
      rw [← hb]
      refine rowLoop_put_block_outside _ _ _ _ _ _ _ _ _ ?_
      intro r t hr ht0 htn hpt
      have hrI : (r : Int) < M2 - sz - (B2 - sz) + 1 := by omega
      have hq0 : 0 ≤ t.ediv bpv := Int.ediv_nonneg ht0 (le_of_lt hbpv)
      have hqlt : t.ediv bpv < M0 - sx - (B0 - sx) + 1 :=
        (Int.ediv_lt_iff_lt_mul hbpv).mpr htn
      have hs0 : 0 ≤ t.emod bpv := Int.emod_nonneg t (ne_of_gt hbpv)
      have hslt : t.emod bpv < bpv := Int.emod_lt_of_pos t hbpv
      have hdecomp : t = bpv * t.ediv bpv + t.emod bpv :=
        (Int.ediv_add_emod t bpv).symm
      refine hp ⟨B0 - mx + t.ediv bpv, B1 - my, B2 - mz + (r : Int), t.emod bpv,
        by omega, by omega, by omega, by omega, by omega, by omega,
        by omega, by omega, by omega, by omega, by omega, by omega,
        hs0, hslt, ?_⟩
      rw [hpt]
      linear_combination hdecomp
    · split at hok
      · -- YZ slice
        have hb : _ = b' := (Prod.ext_iff.mp (Except.ok.inj hok)).2
        rw [← hb]
        refine yzSliceLoop_put_block_outside _ _ _ _ _ _ _ ?_
        intro r j t hr hj ht0 htn hpt
        dsimp only at hr hj htn hpt
        have hrI : (r : Int) < M2 - sz - (B2 - sz) + 1 := by omega
        have hjI : (j : Int) < M1 - sy - (B1 - sy) + 1 := by omega
        refine hp ⟨B0 - mx, B1 - my + (j : Int), B2 - mz + (r : Int), t,
          by omega, by omega, by omega, by omega, by omega, by omega,
          by omega, by omega, by omega, by omega, by omega, by omega,
          ht0, htn, ?_⟩
        rw [hpt]
        ring
      · split at hok
        · -- 2d shape in n-d space: transferBlock errors
          exact Except.noConfusion hok
        · split at hok
          · -- Vol3d: the (direction-swapped) put writes only into the view
            -- buffer, leaving the block untouched
            have hb : _ = b' := (Prod.ext_iff.mp (Except.ok.inj hok)).2
            rw [← hb]
            exact congrFun (volSliceLoop_put_block ..) p
          · exact Except.noConfusion hok

/-- Witness for C7 at a concrete input: a 2×1 XY slice at the origin written
into block (0,0,0) with 2×2×2 blocks and one byte per voxel; byte position 2
of the block (the voxel (0,1,0), outside the slice) keeps its value 9. -/
theorem WriteToBlock_outside_view_witness :
    ∃ d' b', WriteToBlock
      { shape := XY, startPoint := [0, 0, 0], endPoint := [1, 0, 0],
        size := [2, 1], stride := 2, bytesPerVoxel := 1, data := fun _ => 5,
        dataLen := 2 }
      { coord := [0, 0, 0], V := fun _ => 9 } [2, 2, 2] = .ok (d', b') ∧
      b' 2 = 9 := by
  refine ⟨_, _, rfl, ?_⟩
  refine WriteToBlock_outside_view XY [2, 1] 2 2 0 0 0 1 0 0 0 0 0 2 2 2 1
    (fun _ => 5) (fun _ => 9) _ _ (by norm_num) (by norm_num) (by norm_num)
    (by norm_num) rfl 2 ?_
  rintro ⟨qx, qy, qz, s, h⟩
  omega

/-! ## CRC-32 detects single-byte corruption

Supporting development for the checksum claims: the bitwise CRC step is
linear over GF(2), every nonzero one-byte message difference produces a
nonzero CRC state difference (checked exhaustively over the 255 byte
differences), and a nonzero state difference survives any message suffix.
Hence two stored values differing in one payload byte never share a CRC, and
the `DeserializeData` check catches every single-byte corruption of an
uncompressed value — only the error-overwrite on the snappy path loses it. -/
theorem xor_div_two (a b : Nat) : (a ^^^ b) / 2 = (a / 2) ^^^ (b / 2) := by
  apply Nat.eq_of_testBit_eq
  intro i
  simp [Nat.testBit_div_two, Nat.testBit_xor]

theorem xor_mod_two (a b : Nat) : (a ^^^ b) % 2 = (a % 2) ^^^ (b % 2) := by
  rw [Nat.xor_mod_two_eq]
  have ha : a % 2 = 0 ∨ a % 2 = 1 := by omega
  have hb : b % 2 = 0 ∨ b % 2 = 1 := by omega
  rcases ha with ha | ha <;> rcases hb with hb | hb <;>
    simp only [ha, hb, Nat.reduceXor] <;> omega

theorem xor_eq_left_iff (a b : Nat) : a ^^^ b = a ↔ b = 0 := by
  constructor
  · intro h
    calc b = a ^^^ (a ^^^ b) := by
            rw [← Nat.xor_assoc, Nat.xor_self, Nat.zero_xor]
      _ = a ^^^ a := by rw [h]
      _ = 0 := Nat.xor_self a
  · intro h
    rw [h, Nat.xor_zero]

theorem xor_perm4 (w x y z : Nat) :
    (w ^^^ x) ^^^ (y ^^^ z) = ((w ^^^ y) ^^^ x) ^^^ z := by
  apply Nat.eq_of_testBit_eq
  intro i
  simp only [Nat.testBit_xor]
  generalize w.testBit i = p
  generalize x.testBit i = q
  generalize y.testBit i = r
  generalize z.testBit i = s
  revert p q r s
  decide

theorem xor_perm5 (A E Ma Me Md : Nat) :
    (A ^^^ E) ^^^ ((Ma ^^^ Me) ^^^ Md) = (A ^^^ Ma) ^^^ ((E ^^^ Me) ^^^ Md) := by
  apply Nat.eq_of_testBit_eq
  intro i
  simp only [Nat.testBit_xor]
  generalize A.testBit i = p
  generalize E.testBit i = q
  generalize Ma.testBit i = r
  generalize Me.testBit i = s
  generalize Md.testBit i = u
  revert p q r s u
  decide

theorem xor_bit01 {u v : Nat} (hu : u = 0 ∨ u = 1) (hv : v = 0 ∨ v = 1) :
    u ^^^ v = 0 ∨ u ^^^ v = 1 := by
  rcases hu with rfl | rfl <;> rcases hv with rfl | rfl <;> simp

/-- The linear part of one CRC bit step: how a state error evolves through
`crcBitStep` with no message-bit error. -/
def crcErrStep (e : Nat) : Nat := e / 2 ^^^ (e % 2) * crc32Poly

theorem crcBitStep_eq (crc bit : Nat) :
    crcBitStep crc bit = crc / 2 ^^^ ((crc ^^^ bit) % 2) * crc32Poly := by
  unfold crcBitStep
  split
  · next h => rw [h, one_mul]
  · next h =>
    have h0 : (crc ^^^ bit) % 2 = 0 := by omega
    rw [h0, Nat.zero_mul, Nat.xor_zero]

theorem mask_xor_mul (x y : Nat) (hx : x = 0 ∨ x = 1) (hy : y = 0 ∨ y = 1) :
    (x ^^^ y) * crc32Poly = x * crc32Poly ^^^ y * crc32Poly := by
  rcases hx with rfl | rfl <;> rcases hy with rfl | rfl <;>
    simp [Nat.xor_self]

/-- Bit-level linearity of the CRC step: a state error `e` and a message-bit
error `d` pass through `crcBitStep` independently of the true state/bit. -/
theorem crcBitStep_xor (a e bit d : Nat) :
    crcBitStep (a ^^^ e) (bit ^^^ d) =
      crcBitStep a bit ^^^ (crcErrStep e ^^^ (d % 2) * crc32Poly) := by
  rw [crcBitStep_eq, crcBitStep_eq]
  unfold crcErrStep
  rw [xor_div_two]
  have hmod : ((a ^^^ e) ^^^ (bit ^^^ d)) % 2 =
      (((a ^^^ bit) % 2 ^^^ e % 2) ^^^ d % 2) := by
    rw [xor_mod_two, xor_mod_two, xor_mod_two, xor_mod_two]
    exact xor_perm4 ..
  rw [hmod]
  rw [mask_xor_mul ((a ^^^ bit) % 2 ^^^ e % 2) (d % 2)
      (xor_bit01 (by omega) (by omega)) (by omega),
    mask_xor_mul ((a ^^^ bit) % 2) (e % 2) (by omega) (by omega)]
  exact xor_perm5 ..

/-- Evolution of a (state error, message error) pair through `n` bit steps. -/
def crcErrBits (e d : Nat) : Nat → Nat
  | 0 => e
  | n + 1 => crcErrBits (crcErrStep e ^^^ (d % 2) * crc32Poly) (d / 2) n

theorem crcBits_xor (n : Nat) (a b e d : Nat) :
    crcBits (a ^^^ e) (b ^^^ d) n = crcBits a b n ^^^ crcErrBits e d n := by
  induction n generalizing a b e d with
  | zero => rfl
  | succ m ih =>
    simp only [crcBits, crcErrBits]
    rw [xor_mod_two, xor_div_two, crcBitStep_xor,
      Nat.mod_mod_of_dvd d (dvd_refl 2)]
    exact ih ..

theorem crcByte_xor (a b e d : Nat) :
    crcByte (a ^^^ e) (b ^^^ d) = crcByte a b ^^^ crcErrBits e d 8 :=
  crcBits_xor 8 a b e d

/-- The error after one byte with no message error. -/
theorem crcByte_state_xor (a b e : Nat) :
    crcByte (a ^^^ e) b = crcByte a b ^^^ crcErrBits e 0 8 := by
  have h := crcByte_xor a b e 0
  rwa [Nat.xor_zero] at h

theorem crcErrStep_lt (e : Nat) (h : e < 2 ^ 32) : crcErrStep e < 2 ^ 32 := by
  unfold crcErrStep
  have h1 : e / 2 < 2 ^ 32 := by omega
  have h2 : (e % 2) * crc32Poly < 2 ^ 32 := by
    have h3 : e % 2 = 0 ∨ e % 2 = 1 := by omega
    rcases h3 with h3 | h3 <;> rw [h3] <;> norm_num [crc32Poly]
  exact Nat.xor_lt_two_pow h1 h2

theorem crcErrStep_ne_zero (e : Nat) (hlt : e < 2 ^ 32) (hne : e ≠ 0) :
    crcErrStep e ≠ 0 := by
  unfold crcErrStep
  have h : e % 2 = 0 ∨ e % 2 = 1 := by omega
  rcases h with h | h
  · rw [h, Nat.zero_mul, Nat.xor_zero]
    omega
  · rw [h, Nat.one_mul]
    intro hz
    have h31 : (e / 2 ^^^ crc32Poly).testBit 31 = true := by
      have he : (e / 2).testBit 31 = false :=
        Nat.testBit_lt_two_pow (by omega)
      have hp : crc32Poly.testBit 31 = true := by decide
      simp [Nat.testBit_xor, he, hp]
    rw [hz] at h31
    simp [Nat.zero_testBit] at h31

theorem crcErrBits_lt (n : Nat) (e d : Nat) (h : e < 2 ^ 32) :
    crcErrBits e d n < 2 ^ 32 := by
  induction n generalizing e d with
  | zero => exact h
  | succ m ih =>
    simp only [crcErrBits]
    refine ih _ _ (Nat.xor_lt_two_pow (crcErrStep_lt e h) ?_)
    have h2 : d % 2 = 0 ∨ d % 2 = 1 := by omega
    rcases h2 with h2 | h2 <;> rw [h2] <;> norm_num [crc32Poly]

theorem crcErrBits_zero_ne_zero (n : Nat) (e : Nat) (hlt : e < 2 ^ 32)
    (hne : e ≠ 0) : crcErrBits e 0 n ≠ 0 := by
  induction n generalizing e with
  | zero => exact hne
  | succ m ih =>
    simp only [crcErrBits, Nat.zero_mod, Nat.zero_mul, Nat.xor_zero,
      Nat.zero_div]
    exact ih _ (crcErrStep_lt e hlt) (crcErrStep_ne_zero e hlt hne)

set_option maxRecDepth 100000 in
/-- CRC-32 turns every nonzero one-byte message error into a nonzero state
error (an exhaustive check of the 255 byte differences). -/
theorem crcErrBits_byte_ne_zero :
    ∀ d < 256, d ≠ 0 → crcErrBits 0 d 8 ≠ 0 := by decide

/-- Propagation of a state error through the remaining bytes of a message. -/
def errList (E : Nat) : List Nat → Nat
  | [] => E
  | _ :: ys => errList (crcErrBits E 0 8) ys

theorem foldl_crcByte_xor (ys : List Nat) (s E : Nat) :
    ys.foldl crcByte (s ^^^ E) = ys.foldl crcByte s ^^^ errList E ys := by
  induction ys generalizing s E with
  | nil => rfl
  | cons y ys ih =>
    simp only [List.foldl_cons, errList]
    rw [crcByte_state_xor]
    exact ih ..

theorem errList_lt (ys : List Nat) (E : Nat) (h : E < 2 ^ 32) :
    errList E ys < 2 ^ 32 := by
  induction ys generalizing E with
  | nil => exact h
  | cons y ys ih => exact ih _ (crcErrBits_lt 8 E 0 h)

theorem errList_ne_zero (ys : List Nat) (E : Nat) (hlt : E < 2 ^ 32)
    (hne : E ≠ 0) : errList E ys ≠ 0 := by
  induction ys generalizing E with
  | nil => exact hne
  | cons y ys ih =>
    exact ih _ (crcErrBits_lt 8 E 0 hlt) (crcErrBits_zero_ne_zero 8 E hlt hne)

/-- CRC-32 detects every single-byte change: two byte strings that differ in
exactly one byte position have different checksums. -/
theorem crc32_single_byte_change (xs ys : List Nat) (b b' : Nat)
    (hb : b < 256) (hb' : b' < 256) (hne : b ≠ b') :
    crc32ChecksumIEEE (xs ++ b :: ys) ≠ crc32ChecksumIEEE (xs ++ b' :: ys) := by
  unfold crc32ChecksumIEEE
  intro h
  have h2 : (xs ++ b :: ys).foldl crcByte 0xFFFFFFFF =
      (xs ++ b' :: ys).foldl crcByte 0xFFFFFFFF := by
    have h3 := congrArg (fun t => t ^^^ 0xFFFFFFFF) h
    simpa [Nat.xor_assoc, Nat.xor_self, Nat.xor_zero] using h3
  rw [List.foldl_append, List.foldl_append] at h2
  simp only [List.foldl_cons] at h2
  have hd0 : b ^^^ b' ≠ 0 := by
    intro h4
    exact hne (Nat.xor_eq_zero.mp h4)
  have hdlt : b ^^^ b' < 256 := Nat.xor_lt_two_pow (n := 8) hb hb'
  have hbb : b' = b ^^^ (b ^^^ b') := by
    rw [← Nat.xor_assoc, Nat.xor_self, Nat.zero_xor]
  have hE : crcByte (xs.foldl crcByte 0xFFFFFFFF) b' =
      crcByte (xs.foldl crcByte 0xFFFFFFFF) b ^^^ crcErrBits 0 (b ^^^ b') 8 := by
    calc crcByte (xs.foldl crcByte 0xFFFFFFFF) b'
        = crcByte ((xs.foldl crcByte 0xFFFFFFFF) ^^^ 0) (b ^^^ (b ^^^ b')) := by
          rw [Nat.xor_zero, ← hbb]
      _ = crcByte (xs.foldl crcByte 0xFFFFFFFF) b ^^^ crcErrBits 0 (b ^^^ b') 8 :=
          crcByte_xor ..
  rw [hE, foldl_crcByte_xor] at h2
  have hEne : crcErrBits 0 (b ^^^ b') 8 ≠ 0 :=
    crcErrBits_byte_ne_zero (b ^^^ b') hdlt hd0
  have hElt : crcErrBits 0 (b ^^^ b') 8 < 2 ^ 32 :=
    crcErrBits_lt 8 0 (b ^^^ b') (by norm_num)
  exact errList_ne_zero ys _ hElt hEne (xor_eq_left_iff _ _ |>.mp h2.symm)

/-- The CRC check in `DeserializeData` does catch every single-byte
corruption of an UNCOMPRESSED block value: flipping payload byte `b` to `b'`
in the stored value makes deserialization fail.  (For snappy-compressed
values the same mismatch is computed but the error is then overwritten by
the decode step, see `DeserializeData_crc_error_dropped`.) -/
theorem DeserializeData_detects_corruption
    (dec : List Nat → Except String (List Nat)) (xs ys : List Nat) (b b' : Nat)
    (hb : b < 256) (hb' : b' < 256) (hne : b ≠ b') :
    DeserializeData dec
      (2 :: (uint32LEBytes (crc32ChecksumIEEE (xs ++ b :: ys)) ++
        (xs ++ b' :: ys))) true = .error "Bad checksum" := by
  have hcrcne : crc32ChecksumIEEE (xs ++ b' :: ys) ≠
      crc32ChecksumIEEE (xs ++ b :: ys) :=
    (crc32_single_byte_change xs ys b b' hb hb' hne).symm
  have hlt := crc32ChecksumIEEE_lt (xs ++ b :: ys)
  unfold DeserializeData uint32LEBytes
  simp [DecodeSerializationFormat, Uncompressed, Snappy, NoChecksum, CRC32,
    readUint32LE_uint32LEBytes _ hlt, hcrcne,
    show (2 : Nat) &&& 15 = 2 from rfl, show (2 : Nat) >>> 4 = 0 from rfl]

/-! ## Write/read round trip for XY slices (block level)

Supporting development for the round-trip claims: in the XY case (whose copy
directions are correct, unlike Vol3d) writing a view into a block and
reading it back through a fresh view recovers the original bytes at every
position of the intersection. -/

theorem rowLoop_get_data_lower (n : Nat) (data blockV : ByteBuf)
    (blockI dataI bS dS nb p : Int) (hdS : 0 ≤ dS) (hp : p < dataI) :
    (rowLoop .GetOp n data blockV blockI dataI bS dS nb).1 p = data p := by
  induction n generalizing data blockV blockI dataI with
  | zero => rfl
  | succ m ih =>
    show (rowLoop .GetOp m (copyBytes data blockV dataI blockI nb) blockV
        (blockI + bS) (dataI + dS) bS dS nb).1 p = data p
    rw [ih _ _ (blockI + bS) (dataI + dS) (by omega)]
    exact copyBytes_eq_outside _ _ _ _ _ _ (by omega)

theorem rowLoop_put_block_lower (n : Nat) (data blockV : ByteBuf)
    (blockI dataI bS dS nb p : Int) (hbS : 0 ≤ bS) (hp : p < blockI) :
    (rowLoop .PutOp n data blockV blockI dataI bS dS nb).2 p = blockV p := by
  induction n generalizing data blockV blockI dataI with
  | zero => rfl
  | succ m ih =>
    show (rowLoop .PutOp m data (copyBytes blockV data blockI dataI nb)
        (blockI + bS) (dataI + dS) bS dS nb).2 p = blockV p
    rw [ih _ _ (blockI + bS) (dataI + dS) (by omega)]
    exact copyBytes_eq_outside _ _ _ _ _ _ (by omega)

/-- The value a `GetOp` row loop leaves at data position `dataI + r·dS + t`:
the block byte at `blockI + r·bS + t` (rows must not overlap: `nb ≤ dS`). -/
theorem rowLoop_get_data_value (n : Nat) (r : Nat) (data blockV : ByteBuf)
    (blockI dataI bS dS nb t : Int) (hr : r < n) (ht0 : 0 ≤ t) (htn : t < nb)
    (hnb : nb ≤ dS) :
    (rowLoop .GetOp n data blockV blockI dataI bS dS nb).1
      (dataI + (r : Int) * dS + t) = blockV (blockI + (r : Int) * bS + t) := by
  induction n generalizing r data blockV blockI dataI with
  | zero => omega
  | succ m ih =>
    show (rowLoop .GetOp m (copyBytes data blockV dataI blockI nb) blockV
        (blockI + bS) (dataI + dS) bS dS nb).1 _ = _
    cases r with
    | zero =>
      rw [rowLoop_get_data_lower m _ _ (blockI + bS) (dataI + dS) bS dS nb _
        (by omega) (by push_cast; omega)]
      unfold copyBytes
      rw [if_pos (by push_cast; omega)]
      congr 1
      push_cast
      ring
    | succ r' =>
      have h := ih r' (copyBytes data blockV dataI blockI nb) blockV
        (blockI + bS) (dataI + dS) (by omega)
      rw [show dataI + ((r' + 1 : Nat) : Int) * dS + t =
          dataI + dS + (r' : Int) * dS + t by push_cast; ring,
        show blockI + ((r' + 1 : Nat) : Int) * bS + t =
          blockI + bS + (r' : Int) * bS + t by push_cast; ring]
      exact h

/-- The value a `PutOp` row loop leaves at block position `blockI + r·bS + t`:
the data byte at `dataI + r·dS + t` (rows must not overlap: `nb ≤ bS`). -/
theorem rowLoop_put_block_value (n : Nat) (r : Nat) (data blockV : ByteBuf)
    (blockI dataI bS dS nb t : Int) (hr : r < n) (ht0 : 0 ≤ t) (htn : t < nb)
    (hnb : nb ≤ bS) :
    (rowLoop .PutOp n data blockV blockI dataI bS dS nb).2
      (blockI + (r : Int) * bS + t) = data (dataI + (r : Int) * dS + t) := by
  induction n generalizing r data blockV blockI dataI with
  | zero => omega
  | succ m ih =>
    show (rowLoop .PutOp m data (copyBytes blockV data blockI dataI nb)
        (blockI + bS) (dataI + dS) bS dS nb).2 _ = _
    cases r with
    | zero =>
      rw [rowLoop_put_block_lower m _ _ (blockI + bS) (dataI + dS) bS dS nb _
        (by omega) (by push_cast; omega)]
      unfold copyBytes
      rw [if_pos (by push_cast; omega)]
      congr 1
      push_cast
      ring
    | succ r' =>
      have h := ih r' data (copyBytes blockV data blockI dataI nb)
        (blockI + bS) (dataI + dS) (by omega)
      rw [show blockI + ((r' + 1 : Nat) : Int) * bS + t =
          blockI + bS + (r' : Int) * bS + t by push_cast; ring,
        show dataI + ((r' + 1 : Nat) : Int) * dS + t =
          dataI + dS + (r' : Int) * dS + t by push_cast; ring]
      exact h

/-- Block-level round trip for XY slices: writing an XY view into a block
and reading the block back into a fresh view of the same geometry recovers
the original view bytes at every intersection position (`r`-th row, byte
offset `t`).  The direction swap bug is specific to Vol3d; the XY path is
correct. -/
theorem WriteToBlock_ReadFromBlock_XY (size size2 : Pt)
    (stride dataLen dataLen2 : Int)
    (sx sy sz ex ey ez cx cy cz bsx bsy bsz bpv : Int)
    (data d0 blockV d1 b1 d2 b2 : ByteBuf)
    (hbpv : 0 < bpv)
    (hstride : (ex - sx + 1) * bpv ≤ stride)
    (hok1 : WriteToBlock
      { shape := XY, startPoint := [sx, sy, sz], endPoint := [ex, ey, ez],
        size := size, stride := stride, bytesPerVoxel := bpv, data := data,
        dataLen := dataLen }
      { coord := [cx, cy, cz], V := blockV } [bsx, bsy, bsz] = .ok (d1, b1))
    (hok2 : ReadFromBlock
      { shape := XY, startPoint := [sx, sy, sz], endPoint := [ex, ey, ez],
        size := size2, stride := stride, bytesPerVoxel := bpv, data := d0,
        dataLen := dataLen2 }
      { coord := [cx, cy, cz], V := b1 } [bsx, bsy, bsz] = .ok (d2, b2))
    (r : Nat) (t : Int)
    (hr : (r : Int) <
      min ey (cy * bsy + bsy - 1) - sy - (max sy (cy * bsy) - sy) + 1)
    (ht0 : 0 ≤ t)
    (htn : t <
      (min ex (cx * bsx + bsx - 1) - sx - (max sx (cx * bsx) - sx) + 1) * bpv) :
    d2 ((max sy (cy * bsy) - sy) * stride + (max sx (cx * bsx) - sx) * bpv +
        (r : Int) * stride + t) =
      data ((max sy (cy * bsy) - sy) * stride + (max sx (cx * bsx) - sx) * bpv +
        (r : Int) * stride + t) := by
  unfold WriteToBlock transferBlock at hok1
  unfold ReadFromBlock transferBlock at hok2
  rw [if_neg (by simp : ¬ List.length ([bsx, bsy, bsz] : Pt) > 3)] at hok1 hok2
  rw [ComputeTransform_scalars] at hok1 hok2
  simp only [ptValue0, ptValue1, ptValue2] at hok1 hok2
  rw [if_pos (by rfl : (XY.equals XY) = true)] at hok1 hok2
  have hd2 : _ = d2 := (Prod.ext_iff.mp (Except.ok.inj hok2)).1
  have hb1 : _ = b1 := (Prod.ext_iff.mp (Except.ok.inj hok1)).2
  rw [← hd2]
  set mx := cx * bsx with hmx
  set my := cy * bsy with hmy
  set B0 := max sx mx with hB0
  set B1 := max sy my with hB1
  set M0 := min ex (mx + bsx - 1) with hM0
  set M1 := min ey (my + bsy - 1) with hM1
  have hB0a : sx ≤ B0 := by rw [hB0]; exact le_max_left _ _
  have hB0b : mx ≤ B0 := by rw [hB0]; exact le_max_right _ _
  have hB1a : sy ≤ B1 := by rw [hB1]; exact le_max_left _ _
  have hM0a : M0 ≤ ex := by rw [hM0]; exact min_le_left _ _
  have hM0b : M0 ≤ mx + bsx - 1 := by rw [hM0]; exact min_le_right _ _
  have hnbbX : (M0 - sx - (B0 - sx) + 1) * bpv ≤ bsx * bpv :=
    mul_le_mul_of_nonneg_right (by omega) (le_of_lt hbpv)
  have hnbdS : (M0 - sx - (B0 - sx) + 1) * bpv ≤ stride :=
    le_trans (mul_le_mul_of_nonneg_right (by omega) (le_of_lt hbpv)) hstride
  have hrn : r < (M1 - sy - (B1 - sy) + 1).toNat := by omega
  rw [show (B1 - sy) * stride + (B0 - sx) * bpv + (r : Int) * stride + t =
      ((B1 - sy) * stride + (B0 - sx) * bpv) + (r : Int) * stride + t by ring]
  rw [rowLoop_get_data_value _ r _ _ _ _ _ _ _ _ hrn ht0 htn hnbdS]
  rw [← hb1]
  rw [rowLoop_put_block_value _ r _ _ _ _ _ _ _ _ hrn ht0 htn hnbbX]

end DVID
